import Mathlib

/-!
Shallow embedding of the asteroids game core (src/src/main.rs).

Numeric values (Rust `f32` / `f64`) are modelled as exact rationals `ℚ`.
Euclidean distance returns a real number (`Real.sqrt`); to keep the
simulation step functions computable, the source's strict comparisons
`distance < r` and `distance > r` are embedded as the decidable rational
tests `distLtB` / `distGtB`, proved equivalent to the real comparisons by
the bridge lemmas `distLtB_iff` and `distGtB_iff`.

Randomness (`rand::gen_range`) is modelled by an oracle stream
`rng : ℕ → ℚ` together with an index that advances once per draw, in the
same order as the source draws them.  The unbounded rejection-sampling
loop in `generate_asteroid` is modelled with explicit fuel returning
`Option`, so non-termination is expressed as `= none` for every fuel.
-/

namespace Asteroids

/-- Position vector, from `struct Point` (main.rs:11-15). -/
structure Point where
  x : ℚ
  y : ℚ
deriving DecidableEq

/-- Velocity vector, from `struct Velocity` (main.rs:25-29). -/
structure Velocity where
  x : ℚ
  y : ℚ
deriving DecidableEq

/-- `struct Ship` (main.rs:44-48). -/
structure Ship where
  pos : Point
  vel : Velocity
  rotation : ℚ
deriving DecidableEq

/-- `struct Bullet` (main.rs:65-70). -/
structure Bullet where
  pos : Point
  vel : Velocity
  initial_frame : ℚ
  collided : Bool
deriving DecidableEq

/-- `struct Asteroid` (main.rs:78-86).  `sides: u8` is modelled as `ℕ`
(the game only ever subtracts 1 from values `> 4`, so no wraparound). -/
structure Asteroid where
  pos : Point
  vel : Velocity
  rotation : ℚ
  rot_speed : ℚ
  size : ℚ
  sides : ℕ
  collided : Bool
deriving DecidableEq

/-- `const SHIP_HEIGHT: f32 = 25.` (main.rs:7). -/
def SHIP_HEIGHT : ℚ := 25

/-- `const TIME_BETWEEN_SHOTS: f64 = 0.2` (main.rs:9). -/
def TIME_BETWEEN_SHOTS : ℚ := 1/5

/-- Squared Euclidean distance between two points: the radicand of
`Point::distance` (main.rs:18-22). -/
def distSq (a b : Point) : ℚ := (a.x - b.x)^2 + (a.y - b.y)^2

/-- `Point::distance` (main.rs:18-22): Euclidean distance,
`sqrt((x2-x1)^2 + (y2-y1)^2)`, valued in `ℝ`. -/
noncomputable def Point.distance (a b : Point) : ℝ :=
  Real.sqrt (((a.x - b.x : ℚ) : ℝ)^2 + ((a.y - b.y : ℚ) : ℝ)^2)

/-- Decidable embedding of the source test `a.distance(b) < r`. -/
def distLtB (a b : Point) (r : ℚ) : Bool :=
  decide (0 < r ∧ distSq a b < r^2)

/-- Decidable embedding of the source test `a.distance(b) > r`. -/
def distGtB (a b : Point) (r : ℚ) : Bool :=
  decide (r < 0 ∨ r^2 < distSq a b)

lemma distance_eq_sqrt (a b : Point) :
    Point.distance a b = Real.sqrt ((distSq a b : ℝ)) := by
  unfold Point.distance distSq
  push_cast
  ring_nf

lemma distSq_nonneg (a b : Point) : 0 ≤ distSq a b := by
  unfold distSq
  positivity

/-- Bridge: the rational test `distLtB` is exactly the real comparison
`distance < r` of the source. -/
lemma distLtB_iff (a b : Point) (r : ℚ) :
    distLtB a b r = true ↔ Point.distance a b < (r : ℝ) := by
  rw [distance_eq_sqrt]
  unfold distLtB
  rcases lt_or_le 0 r with hr | hr
  · have h2 : Real.sqrt ((distSq a b : ℝ)) < (r : ℝ) ↔ (distSq a b : ℝ) < (r : ℝ)^2 :=
      Real.sqrt_lt' (by exact_mod_cast hr)
    simp only [decide_eq_true_eq, h2]
    constructor
    · rintro ⟨-, h⟩
      exact_mod_cast h
    · intro h
      exact ⟨hr, by exact_mod_cast h⟩
  · constructor
    · intro h
      simp only [decide_eq_true_eq] at h
      exact absurd h.1 (not_lt.mpr hr)
    · intro h
      have : (0:ℝ) ≤ Real.sqrt ((distSq a b : ℝ)) := Real.sqrt_nonneg _
      have hrr : (r : ℝ) ≤ 0 := by exact_mod_cast hr
      linarith

/-- Bridge: the rational test `distGtB` is exactly the real comparison
`distance > r` of the source. -/
lemma distGtB_iff (a b : Point) (r : ℚ) :
    distGtB a b r = true ↔ (r : ℝ) < Point.distance a b := by
  rw [distance_eq_sqrt]
  unfold distGtB
  simp only [decide_eq_true_eq]
  rcases lt_or_le r 0 with hr | hr
  · have h0 : (0:ℝ) ≤ Real.sqrt ((distSq a b : ℝ)) := Real.sqrt_nonneg _
    have hrr : (r : ℝ) < 0 := by exact_mod_cast hr
    constructor
    · intro _
      linarith
    · intro _
      exact Or.inl hr
  · have h2 : (r : ℝ) < Real.sqrt ((distSq a b : ℝ)) ↔ (r : ℝ)^2 < (distSq a b : ℝ) :=
      Real.lt_sqrt (by exact_mod_cast hr)
    constructor
    · rintro (h | h)
      · exact absurd h (not_lt.mpr hr)
      · exact h2.mpr (by exact_mod_cast h)
    · intro h
      exact Or.inr (by exact_mod_cast h2.mp h)

/-- `wrap_around` (main.rs:124-140): each axis is run through the two
sequential `if`s of the source (`> extent` sets `0`, then `< 0` sets the
extent).  `screen_width()` / `screen_height()` are the parameters. -/
def wrap_around (w h : ℚ) (p : Point) : Point :=
  let x1 := if p.x > w then 0 else p.x
  let x2 := if x1 < 0 then w else x1
  let y1 := if p.y > h then 0 else p.y
  let y2 := if y1 < 0 then h else y1
  ⟨x2, y2⟩

/-- **C8.** `Point::distance` is symmetric; it is zero iff the points
coincide; in particular `distance a a = 0`. -/
theorem distance_c8 (a b : Point) :
    Point.distance a b = Point.distance b a ∧
    (Point.distance a b = 0 ↔ a = b) ∧
    Point.distance a a = 0 := by
  refine ⟨?_, ?_, ?_⟩
  · rw [distance_eq_sqrt, distance_eq_sqrt]
    have h : distSq a b = distSq b a := by unfold distSq; ring
    rw [h]
  · rw [distance_eq_sqrt]
    rw [Real.sqrt_eq_zero (by exact_mod_cast distSq_nonneg a b)]
    constructor
    · intro h
      have h0 : distSq a b = 0 := by exact_mod_cast h
      unfold distSq at h0
      have hx : (a.x - b.x)^2 = 0 ∧ (a.y - b.y)^2 = 0 := by
        constructor <;> nlinarith [sq_nonneg (a.x - b.x), sq_nonneg (a.y - b.y)]
      have hx1 : a.x = b.x := by nlinarith [hx.1]
      have hy1 : a.y = b.y := by nlinarith [hx.2]
      cases a; cases b; simp_all
    · intro h
      subst h
      unfold distSq
      push_cast
      ring
  · rw [distance_eq_sqrt]
    have h : distSq a a = 0 := by unfold distSq; ring
    rw [h]
    exact_mod_cast Real.sqrt_zero

/-- **C2 counterexample.** A coordinate exactly at `screen_width` is NOT
mapped to `0` by `wrap_around`: the source test is the strict `point.x >
width`, so `x = width` is left unchanged, and the result does not lie in
`[0, width)`. -/
theorem wrap_c2_cex :
    wrap_around 800 600 ⟨800, 300⟩ = ⟨800, 300⟩ ∧
    ¬ (wrap_around 800 600 ⟨800, 300⟩).x = 0 ∧
    ¬ (wrap_around 800 600 ⟨800, 300⟩).x < 800 := by
  refine ⟨?_, ?_, ?_⟩ <;> decide

/-- **C2 (amended).** `wrap_around` is a no-op on a point already inside
the closed box `[0, w] × [0, h]`; a coordinate strictly above the extent
maps to `0`; a negative coordinate maps to the extent (for `0 ≤ w`); and
for nonnegative extents every output coordinate lies in the closed
intervals `[0, w]` and `[0, h]`. -/
theorem wrap_c2 (w h : ℚ) (p : Point) :
    (0 ≤ p.x → p.x ≤ w → 0 ≤ p.y → p.y ≤ h → wrap_around w h p = p) ∧
    (w < p.x → (wrap_around w h p).x = 0) ∧
    (p.x < 0 → 0 ≤ w → (wrap_around w h p).x = w) ∧
    (h < p.y → (wrap_around w h p).y = 0) ∧
    (p.y < 0 → 0 ≤ h → (wrap_around w h p).y = h) ∧
    (0 ≤ w → 0 ≤ h →
      0 ≤ (wrap_around w h p).x ∧ (wrap_around w h p).x ≤ w ∧
      0 ≤ (wrap_around w h p).y ∧ (wrap_around w h p).y ≤ h) := by
  unfold wrap_around
  refine ⟨?_, ?_, ?_, ?_, ?_, ?_⟩
  · intro hx0 hxw hy0 hyh
    have h1 : ¬ p.x > w := not_lt.mpr hxw
    have h2 : ¬ p.x < 0 := not_lt.mpr hx0
    have h3 : ¬ p.y > h := not_lt.mpr hyh
    have h4 : ¬ p.y < 0 := not_lt.mpr hy0
    simp only [h1, if_neg, ite_false, h2, h3, h4]
  · intro hx
    simp only [if_pos hx]
    simp
  · intro hx hw
    have h1 : ¬ p.x > w := by linarith
    simp only [if_neg h1, if_pos hx]
  · intro hy
    simp only [if_pos hy]
    simp
  · intro hy hh
    have h1 : ¬ p.y > h := by linarith
    simp only [if_neg h1, if_pos hy]
  · intro hw hh
    constructor
    · by_cases h1 : p.x > w
      · simp only [if_pos h1]
        split <;> simp_all
      · simp only [if_neg h1]
        split
        · exact hw
        · linarith [not_lt.mp (by assumption : ¬ p.x < 0)]
    constructor
    · by_cases h1 : p.x > w
      · simp only [if_pos h1]
        split <;> simp_all
      · simp only [if_neg h1]
        split
        · exact le_refl w
        · exact not_lt.mp h1
    constructor
    · by_cases h1 : p.y > h
      · simp only [if_pos h1]
        split <;> simp_all
      · simp only [if_neg h1]
        split
        · exact hh
        · linarith [not_lt.mp (by assumption : ¬ p.y < 0)]
    · by_cases h1 : p.y > h
      · simp only [if_pos h1]
        split <;> simp_all
      · simp only [if_neg h1]
        split
        · exact le_refl h
        · exact not_lt.mp h1

/-- Witness for C2 (amended) at concrete inputs. -/
theorem wrap_c2_witness :
    wrap_around 800 600 ⟨10, 20⟩ = ⟨10, 20⟩ ∧
    (wrap_around 800 600 ⟨-5, 20⟩).x = 800 := by
  constructor
  · exact (wrap_c2 800 600 ⟨10, 20⟩).1 (by norm_num) (by norm_num) (by norm_num) (by norm_num)
  · exact (wrap_c2 800 600 ⟨-5, 20⟩).2.2.1 (by norm_num) (by norm_num)

/-- The bullet-asteroid collision test of main.rs:283:
`asteroid.pos.distance(&bullet.pos) < asteroid.size`. -/
def hitB (a : Asteroid) (b : Bullet) : Bool := distLtB a.pos b.pos a.size

/-- The ship-asteroid collision test of main.rs:276:
`asteroid.pos.distance(&ship.pos) < asteroid.size + SHIP_HEIGHT / 3.`. -/
def shipHitB (s : Ship) (a : Asteroid) : Bool :=
  distLtB a.pos s.pos (a.size + SHIP_HEIGHT / 3)

/-- Sets `bullet.collided = true` (main.rs:285). -/
def flagB (b : Bullet) : Bullet := {b with collided := true}

/-- The inner bullet scan of the collision pass (main.rs:282-315): walk
the bullet list in order; at the first bullet within `asteroid.size`,
flag it and stop (`break`), returning its velocity (used for the
children) and the updated list.  `none` when no bullet hits. -/
def scanBullets (a : Asteroid) : List Bullet → Option (Velocity × List Bullet)
  | [] => none
  | b :: bs =>
      if hitB a b then some (b.vel, flagB b :: bs)
      else
        match scanBullets a bs with
        | none => none
        | some (v, bs') => some (v, b :: bs')

/-- One fragment asteroid (main.rs:289-312): parent position, velocity
`bullet.vel/5 + (parent.vel + explosiveness) * gen_range(0,2)` per axis,
fresh rotation and rotational speed, `size * 0.6`, `sides - 1`. -/
def mkChild (a : Asteroid) (bv : Velocity) (expl r1 r2 rot rsp : ℚ) : Asteroid :=
  { pos := a.pos,
    vel := ⟨bv.x / 5 + (a.vel.x + expl) * r1, bv.y / 5 + (a.vel.y + expl) * r2⟩,
    rotation := rot,
    rot_speed := rsp,
    size := a.size * (3/5),
    sides := a.sides - 1,
    collided := false }

/-- The per-asteroid body of the collision pass (main.rs:282-316), after
the ship check: scan the bullets; on a hit flag the asteroid, and if
`sides > 4` queue exactly two children.  The random draws of the source,
in order, are `explosiveness` (`rng i`, shared by both children), then
for each child the two `gen_range(0., 2.)` velocity factors, the
rotation and the rotational speed. -/
def processAsteroid (a : Asteroid) (bs : List Bullet) (rng : ℕ → ℚ) (i : ℕ) :
    Asteroid × List Bullet × List Asteroid × ℕ :=
  match scanBullets a bs with
  | none => (a, bs, [], i)
  | some (v, bs') =>
      if 4 < a.sides then
        ({a with collided := true}, bs',
         [mkChild a v (rng i) (rng (i+1)) (rng (i+2)) (rng (i+3)) (rng (i+4)),
          mkChild a v (rng i) (rng (i+5)) (rng (i+6)) (rng (i+7)) (rng (i+8))],
         i + 9)
      else ({a with collided := true}, bs', [], i)

/-- The full collision pass (main.rs:273-317): iterate the asteroids in
order; if one is within `size + SHIP_HEIGHT/3` of the ship, set
`gameover` and `break` (remaining asteroids and all bullets untouched);
otherwise run the bullet scan and accumulate queued children.  Returns
(asteroids, bullets, new asteroids, gameover, rng index). -/
def collisionPass (s : Ship) (rng : ℕ → ℚ) :
    List Asteroid → List Bullet → ℕ →
    List Asteroid × List Bullet × List Asteroid × Bool × ℕ
  | [], bs, i => ([], bs, [], false, i)
  | a :: rest, bs, i =>
      if shipHitB s a then (a :: rest, bs, [], true, i)
      else
        let p := processAsteroid a bs rng i
        let r := collisionPass s rng rest p.2.1 p.2.2.2
        (p.1 :: r.1, r.2.1, p.2.2.1 ++ r.2.2.1, r.2.2.2.1, r.2.2.2.2)

/-- End-of-frame bullet prune (main.rs:320):
`bullets.retain(|b| b.initial_frame + 1.5 > frame_time && !b.collided)`. -/
def pruneBullets (t : ℚ) (bs : List Bullet) : List Bullet :=
  bs.filter fun b => decide (t < b.initial_frame + 3/2) && !b.collided

/-- Collision detection plus the unconditional end-of-frame lifecycle
phase (main.rs:272-327): prune collided/expired bullets, prune collided
asteroids, append the queued children, then set `gameover` if the
asteroid collection is empty.  Returns (asteroids, bullets, gameover,
rng index). -/
def framePhase (s : Ship) (rng : ℕ → ℚ) (as : List Asteroid) (bs : List Bullet)
    (i : ℕ) (t : ℚ) : List Asteroid × List Bullet × Bool × ℕ :=
  let c := collisionPass s rng as bs i
  let as2 := c.1.filter (fun a => !a.collided) ++ c.2.2.1
  (as2, pruneBullets t c.2.1, c.2.2.2.1 || as2.isEmpty, c.2.2.2.2)

lemma scanBullets_none (a : Asteroid) :
    ∀ bs : List Bullet, (∀ x ∈ bs, hitB a x = false) → scanBullets a bs = none := by
  intro bs
  induction bs with
  | nil => intro _; rfl
  | cons b bs ih =>
    intro h
    have hb : hitB a b = false := h b (List.mem_cons_self b bs)
    simp [scanBullets, hb, ih (fun x hx => h x (List.mem_cons_of_mem b hx))]

lemma scanBullets_first (a : Asteroid) (b : Bullet) (hb : hitB a b = true) :
    ∀ (pre post : List Bullet), (∀ x ∈ pre, hitB a x = false) →
      scanBullets a (pre ++ b :: post) = some (b.vel, pre ++ flagB b :: post) := by
  intro pre
  induction pre with
  | nil => intro post _; simp [scanBullets, hb]
  | cons p pre ih =>
    intro post h
    have hp : hitB a p = false := h p (by simp)
    simp [scanBullets, hp, ih post (fun x hx => h x (by simp [hx]))]

lemma processAsteroid_kids (a : Asteroid) (bs : List Bullet) (rng : ℕ → ℚ) (i : ℕ) :
    ∀ c ∈ (processAsteroid a bs rng i).2.2.1, c.collided = false := by
  cases hscan : scanBullets a bs with
  | none => simp [processAsteroid, hscan]
  | some vb =>
    obtain ⟨v, bs'⟩ := vb
    by_cases hs : 4 < a.sides <;>
      simp [processAsteroid, hscan, hs, mkChild]

lemma collisionPass_kids (s : Ship) (rng : ℕ → ℚ) :
    ∀ (as : List Asteroid) (bs : List Bullet) (i : ℕ),
      ∀ c ∈ (collisionPass s rng as bs i).2.2.1, c.collided = false := by
  intro as
  induction as with
  | nil => intro bs i c hc; simp [collisionPass] at hc
  | cons a rest ih =>
    intro bs i c hc
    by_cases hs : shipHitB s a = true
    · simp [collisionPass, hs] at hc
    · simp only [collisionPass, if_neg hs] at hc
      rcases List.mem_append.mp hc with h1 | h2
      · exact processAsteroid_kids a bs rng i c h1
      · exact ih _ _ c h2

/-- **C1.** In the per-asteroid collision step: if the bullet list splits
as `pre ++ b :: post` where no bullet of `pre` is within `asteroid.size`
and `b` is, then the asteroid is flagged collided, `b` (and only `b`) is
flagged collided — the scan stops at the first hit, leaving `post`
untouched; if `sides > 4` exactly two children are queued, each with
`sides = parent.sides - 1`, `size = parent.size * 0.6` and the parent's
position; if `sides ≤ 4` zero children are queued.  When no bullet is
within range, nothing changes and nothing is queued. -/
theorem frag_c1 (a : Asteroid) (pre post : List Bullet) (b : Bullet)
    (rng : ℕ → ℚ) (i : ℕ)
    (hpre : ∀ x ∈ pre, hitB a x = false) (hb : hitB a b = true) :
    (processAsteroid a (pre ++ b :: post) rng i).1.collided = true ∧
    (processAsteroid a (pre ++ b :: post) rng i).2.1 = pre ++ flagB b :: post ∧
    (4 < a.sides →
      ((processAsteroid a (pre ++ b :: post) rng i).2.2.1).length = 2 ∧
      ∀ c ∈ (processAsteroid a (pre ++ b :: post) rng i).2.2.1,
        c.sides = a.sides - 1 ∧ c.size = a.size * (3/5) ∧ c.pos = a.pos) ∧
    (a.sides ≤ 4 → (processAsteroid a (pre ++ b :: post) rng i).2.2.1 = []) ∧
    (∀ bs : List Bullet, (∀ x ∈ bs, hitB a x = false) →
      processAsteroid a bs rng i = (a, bs, [], i)) := by
  have hscan := scanBullets_first a b hb pre post hpre
  have hmiss : ∀ bs : List Bullet, (∀ x ∈ bs, hitB a x = false) →
      processAsteroid a bs rng i = (a, bs, [], i) := by
    intro bs h
    simp [processAsteroid, scanBullets_none a bs h]
  by_cases hs : 4 < a.sides
  · refine ⟨?_, ?_, ?_, ?_, hmiss⟩
    · simp [processAsteroid, hscan, hs]
    · simp [processAsteroid, hscan, hs]
    · intro _
      constructor
      · simp [processAsteroid, hscan, hs]
      · intro c hc
        simp only [processAsteroid, hscan, if_pos hs] at hc
        rcases List.mem_cons.mp hc with rfl | hc2
        · exact ⟨rfl, rfl, rfl⟩
        · rcases List.mem_cons.mp hc2 with rfl | hc3
          · exact ⟨rfl, rfl, rfl⟩
          · simp at hc3
    · intro hle
      exact absurd hs (not_lt.mpr hle)
  · refine ⟨?_, ?_, ?_, ?_, hmiss⟩
    · simp [processAsteroid, hscan, hs]
    · simp [processAsteroid, hscan, hs]
    · intro h4
      exact absurd h4 hs
    · intro _
      simp [processAsteroid, hscan, hs]

/-- Witness for C1 at a concrete asteroid (6 sides, size 10 at the
origin) and two bullets, the first out of range and the second in range:
exactly two children are queued. -/
theorem frag_c1_witness :
    ((processAsteroid ⟨⟨0,0⟩, ⟨0,0⟩, 0, 0, 10, 6, false⟩
        ([⟨⟨100,100⟩, ⟨0,0⟩, 0, false⟩] ++ ⟨⟨1,1⟩, ⟨2,3⟩, 0, false⟩ :: [])
        (fun _ => 0) 0).2.2.1).length = 2 :=
  ((frag_c1 ⟨⟨0,0⟩, ⟨0,0⟩, 0, 0, 10, 6, false⟩ [⟨⟨100,100⟩, ⟨0,0⟩, 0, false⟩] []
      ⟨⟨1,1⟩, ⟨2,3⟩, 0, false⟩ (fun _ => 0) 0 (by with_unfolding_all decide) (by with_unfolding_all decide)).2.2.1
    (by norm_num)).1

/-- **C3.** If, when the collision pass reaches an asteroid, that
asteroid is within `size + SHIP_HEIGHT/3` of the ship, the pass exits at
once with `gameover = true`: the remaining asteroids and all bullets are
returned untouched and no further pair is examined.  Consequently,
whenever some asteroid of the list is within `size + SHIP_HEIGHT/3` of
the ship, the pass reports `gameover = true`. -/
theorem shiphit_c3 (s : Ship) (rng : ℕ → ℚ) :
    (∀ (a : Asteroid) (rest : List Asteroid) (bs : List Bullet) (i : ℕ),
        shipHitB s a = true →
        collisionPass s rng (a :: rest) bs i = (a :: rest, bs, [], true, i)) ∧
    (∀ (as : List Asteroid) (bs : List Bullet) (i : ℕ),
        (∃ a ∈ as, shipHitB s a = true) →
        (collisionPass s rng as bs i).2.2.2.1 = true) := by
  constructor
  · intro a rest bs i h
    simp [collisionPass, h]
  · intro as
    induction as with
    | nil =>
      intro bs i h
      simp at h
    | cons a rest ih =>
      intro bs i h
      by_cases hs : shipHitB s a = true
      · simp [collisionPass, hs]
      · rcases h with ⟨x, hx, hhit⟩
        rcases List.mem_cons.mp hx with rfl | hx'
        · exact absurd hhit hs
        · simp only [collisionPass, if_neg hs]
          exact ih _ _ ⟨x, hx', hhit⟩

/-- Witness for C3: a ship at the origin and an asteroid of size 10 on
top of it: the pass breaks immediately with `gameover = true`. -/
theorem shiphit_c3_witness :
    collisionPass ⟨⟨0,0⟩, ⟨0,0⟩, 0⟩ (fun _ => 0)
      [⟨⟨0,0⟩, ⟨0,0⟩, 0, 0, 10, 6, false⟩] [] 0 =
      ([⟨⟨0,0⟩, ⟨0,0⟩, 0, 0, 10, 6, false⟩], [], [], true, 0) :=
  (shiphit_c3 ⟨⟨0,0⟩, ⟨0,0⟩, 0⟩ (fun _ => 0)).1
    ⟨⟨0,0⟩, ⟨0,0⟩, 0, 0, 10, 6, false⟩ [] [] 0 (by with_unfolding_all decide)

/-- **C9.** On a frame whose collision pass reports `gameover = true`
(ship struck), the end-of-frame lifecycle still executes: the bullets
are still pruned, the asteroids flagged collided earlier in that same
pass are still removed, and the queued children are still appended — the
GameOver transition is not atomic with that frame's collision effects.
Every asteroid surviving the frame is unflagged. -/
theorem frame_c9 (s : Ship) (rng : ℕ → ℚ) (as : List Asteroid)
    (bs : List Bullet) (i : ℕ) (t : ℚ)
    (hgo : (collisionPass s rng as bs i).2.2.2.1 = true) :
    (framePhase s rng as bs i t).1 =
      (collisionPass s rng as bs i).1.filter (fun a => !a.collided) ++
        (collisionPass s rng as bs i).2.2.1 ∧
    (framePhase s rng as bs i t).2.1 = pruneBullets t (collisionPass s rng as bs i).2.1 ∧
    (framePhase s rng as bs i t).2.2.1 = true ∧
    (∀ x ∈ (framePhase s rng as bs i t).1, x.collided = false) := by
  refine ⟨rfl, rfl, ?_, ?_⟩
  · simp [framePhase, hgo]
  · intro x hx
    simp only [framePhase] at hx
    rcases List.mem_append.mp hx with h1 | h2
    · have := List.mem_filter.mp h1
      simpa using this.2
    · exact collisionPass_kids s rng as bs i x h2

/-- Witness for C9: ship-asteroid overlap at the origin; `gameover` is
true and the frame's lifecycle result is still computed. -/
theorem frame_c9_witness :
    (framePhase ⟨⟨0,0⟩, ⟨0,0⟩, 0⟩ (fun _ => 0)
      [⟨⟨0,0⟩, ⟨0,0⟩, 0, 0, 10, 6, false⟩] [] 0 0).2.2.1 = true :=
  (frame_c9 ⟨⟨0,0⟩, ⟨0,0⟩, 0⟩ (fun _ => 0)
      [⟨⟨0,0⟩, ⟨0,0⟩, 0, 0, 10, 6, false⟩] [] 0 0 (by with_unfolding_all decide)).2.2.1

/-- **C5 counterexample.** A bullet of age exactly 1.5 s is pruned by
the source's retain test `initial_frame + 1.5 > frame_time`, although it
is neither older than 1.5 s nor collided — so the prune does not remove
"exactly those older than 1.5 s or collided". -/
theorem bullet_prune_c5_cex :
    pruneBullets (3/2) [⟨⟨0,0⟩, ⟨0,0⟩, 0, false⟩] = [] ∧
    ¬ ((3/2 : ℚ) - 0 > 3/2) ∧
    (Bullet.mk ⟨0,0⟩ ⟨0,0⟩ 0 false).collided = false := by
  refine ⟨by with_unfolding_all decide, by norm_num, rfl⟩

/-- **C5 (amended).** The end-of-frame prune keeps exactly the bullets
with `frame_time < initial_frame + 1.5` that are not flagged collided:
a bullet is removed iff its age is at least 1.5 s or it collided, so no
bullet aged 1.5 s or more survives a frame. -/
theorem bullet_prune_c5 (t : ℚ) (bs : List Bullet) (b : Bullet) :
    b ∈ pruneBullets t bs ↔
      b ∈ bs ∧ t < b.initial_frame + 3/2 ∧ b.collided = false := by
  simp [pruneBullets, List.mem_filter, Bool.and_eq_true, decide_eq_true_eq,
    Bool.not_eq_true', and_assoc]

/-- Witness for C5 (amended): a fresh bullet at time 0 survives the
prune. -/
theorem bullet_prune_c5_witness :
    (⟨⟨0,0⟩, ⟨0,0⟩, 0, false⟩ : Bullet) ∈
      pruneBullets 0 [⟨⟨0,0⟩, ⟨0,0⟩, 0, false⟩] :=
  (bullet_prune_c5 0 [⟨⟨0,0⟩, ⟨0,0⟩, 0, false⟩] ⟨⟨0,0⟩, ⟨0,0⟩, 0, false⟩).mpr
    (by with_unfolding_all decide)

/-- The fire-control logic (main.rs:233-251), projected onto its timing
state: fold over the frames, each a pair (fire key down, frame time).
A bullet spawns on a frame iff the key is down and
`frame_time - last_shot > TIME_BETWEEN_SHOTS`; on a spawn `last_shot`
is reset to the frame time.  Returns the list of spawn timestamps. -/
def runFire (last : ℚ) : List (Bool × ℚ) → List ℚ
  | [] => []
  | (k, t) :: fs =>
      if k && decide (TIME_BETWEEN_SHOTS < t - last) then t :: runFire t fs
      else runFire last fs

lemma runFire_mem_gt :
    ∀ (fs : List (Bool × ℚ)) (last x : ℚ),
      x ∈ runFire last fs → last + TIME_BETWEEN_SHOTS < x := by
  intro fs
  induction fs with
  | nil =>
    intro last x hx
    simp [runFire] at hx
  | cons f fs ih =>
    intro last x hx
    obtain ⟨k, t⟩ := f
    by_cases hc : (k && decide (TIME_BETWEEN_SHOTS < t - last)) = true
    · simp only [runFire, if_pos hc] at hx
      have ht : TIME_BETWEEN_SHOTS < t - last := by
        have := (Bool.and_eq_true _ _).mp hc
        exact of_decide_eq_true this.2
      rcases List.mem_cons.mp hx with rfl | hx2
      · linarith
      · have h2 := ih t x hx2
        have hpos : (0:ℚ) < TIME_BETWEEN_SHOTS := by norm_num [TIME_BETWEEN_SHOTS]
        linarith
    · simp only [runFire, if_neg hc] at hx
      exact ih last x hx

lemma runFire_pairwise :
    ∀ (fs : List (Bool × ℚ)) (last : ℚ),
      List.Pairwise (fun a b : ℚ => a + TIME_BETWEEN_SHOTS < b) (runFire last fs) := by
  intro fs
  induction fs with
  | nil =>
    intro last
    simp [runFire]
  | cons f fs ih =>
    intro last
    obtain ⟨k, t⟩ := f
    by_cases hc : (k && decide (TIME_BETWEEN_SHOTS < t - last)) = true
    · simp only [runFire, if_pos hc]
      exact List.Pairwise.cons (fun x hx => runFire_mem_gt fs t x hx) (ih t)
    · simp only [runFire, if_neg hc]
      exact ih last

/-- **C4.** Spawn timestamps produced by the fire control are separated
pairwise by strictly more than `TIME_BETWEEN_SHOTS` (0.2 s), even under
continuous fire input; a bullet spawns on a frame iff the fire key is
down and the frame time minus the last-shot time exceeds 0.2 s, the
last-shot timestamp being reset to the frame time on each spawn. -/
theorem fire_rate_c4 (last : ℚ) (k : Bool) (t : ℚ) (fs : List (Bool × ℚ)) :
    List.Pairwise (fun a b : ℚ => a + TIME_BETWEEN_SHOTS < b) (runFire last fs) ∧
    (k = true → TIME_BETWEEN_SHOTS < t - last →
      runFire last ((k, t) :: fs) = t :: runFire t fs) ∧
    ((k = true ∧ TIME_BETWEEN_SHOTS < t - last → False) →
      runFire last ((k, t) :: fs) = runFire last fs) := by
  refine ⟨runFire_pairwise fs last, ?_, ?_⟩
  · intro hk ht
    simp [runFire, hk, ht]
  · intro hno
    have hc : (k && decide (TIME_BETWEEN_SHOTS < t - last)) = false := by
      rcases Bool.eq_false_or_eq_true (k && decide (TIME_BETWEEN_SHOTS < t - last)) with h | h
      · have := (Bool.and_eq_true _ _).mp h
        exact absurd ⟨this.1, of_decide_eq_true this.2⟩ hno
      · exact h
    simp only [runFire, hc, Bool.false_eq_true, if_false]

/-- Witness for C4: key held at times 0-past cooldown. -/
theorem fire_rate_c4_witness :
    runFire 0 [((true : Bool), (1:ℚ))] = 1 :: runFire 1 [] :=
  (fire_rate_c4 0 true 1 []).2.1 rfl (by norm_num [TIME_BETWEEN_SHOTS])

/-- The rejection-sampling loop of `generate_asteroid` (main.rs:102-110),
with explicit fuel: each iteration draws two uniform samples (modelled by
`rng i`, `rng (i+1)`, both in `[0,1]`), forms the candidate
`(sample * screen_width, sample * screen_height)` and accepts it iff its
distance to `avoid_point` exceeds `asteroid_size + avoid_distance`,
where `asteroid_size = min w h / 10`.  The source has no fuel: it loops
forever when no candidate is accepted, which here is `none` for every
fuel. -/
def genTry (w h : ℚ) (avoid : Point) (d : ℚ) (rng : ℕ → ℚ) :
    ℕ → ℕ → Option (Point × ℕ)
  | 0, _ => none
  | fuel+1, i =>
      let p : Point := ⟨rng i * w, rng (i+1) * h⟩
      if distGtB p avoid (min w h / 10 + d) then some (p, i + 2)
      else genTry w h avoid d rng fuel (i + 2)

/-- `generate_asteroid` (main.rs:97-121): position from the rejection
loop, then velocity, rotation and rotational speed drawn from the
stream, `size = min w h / 10`, `sides = 6`. -/
def generateAsteroid (w h : ℚ) (avoid : Point) (d : ℚ) (rng : ℕ → ℚ)
    (fuel i : ℕ) : Option (Asteroid × ℕ) :=
  match genTry w h avoid d rng fuel i with
  | none => none
  | some (p, j) =>
      some ({ pos := p, vel := ⟨rng j, rng (j+1)⟩, rotation := rng (j+2),
              rot_speed := rng (j+3), size := min w h / 10, sides := 6,
              collided := false }, j + 4)

/-- `n` successive `generate_asteroid` calls (the `for _ in 0..10` loops
of main.rs:161-166 and main.rs:188-193), threading the rng index. -/
def genAsteroids (w h : ℚ) (avoid : Point) (d : ℚ) (rng : ℕ → ℚ)
    (fuel : ℕ) : ℕ → ℕ → Option (List Asteroid × ℕ)
  | 0, i => some ([], i)
  | n+1, i =>
      match generateAsteroid w h avoid d rng fuel i with
      | none => none
      | some (a, j) =>
          match genAsteroids w h avoid d rng fuel n j with
          | none => none
          | some (l, j2) => some (a :: l, j2)

/-- The loop-owned game state: ship, asteroid and bullet collections,
and the `gameover` flag (`Playing` = `false`, `GameOver` = `true`). -/
structure GState where
  ship : Ship
  asteroids : List Asteroid
  bullets : List Bullet
  gameover : Bool
deriving DecidableEq

/-- The game-start setup (main.rs:151-166) and the confirm-input reset
from GameOver (main.rs:175-196), which are textually identical: ship at
screen center with zero velocity and rotation, fresh empty bullet list,
10 asteroids generated avoiding the ship center by `SHIP_HEIGHT * 3`,
and the state machine in Playing. -/
def resetState (w h : ℚ) (rng : ℕ → ℚ) (fuel : ℕ) : Option GState :=
  match genAsteroids w h ⟨w/2, h/2⟩ (SHIP_HEIGHT * 3) rng fuel 10 0 with
  | none => none
  | some (l, _) => some ⟨⟨⟨w/2, h/2⟩, ⟨0, 0⟩, 0⟩, l, [], false⟩

/-- **C6.** The rejection-sampling loop of `generate_asteroid` has no
iteration cap: whenever no candidate within the screen bounds satisfies
`distance(candidate, avoid_point) > min(w,h)/10 + avoid_distance`, the
loop never accepts, i.e. it returns `none` for EVERY fuel bound — the
source, having no fuel, does not terminate.  (The source code contains
no bounded retry or fallback placement; the model reflects this in that
`genTry` has no other exit.) -/
theorem gen_hang_c6 (w h : ℚ) (avoid : Point) (d : ℚ) (rng : ℕ → ℚ)
    (hrng : ∀ i, 0 ≤ rng i ∧ rng i ≤ 1)
    (hunsat : ∀ u v : ℚ, 0 ≤ u → u ≤ 1 → 0 ≤ v → v ≤ 1 →
      distGtB ⟨u * w, v * h⟩ avoid (min w h / 10 + d) = false) :
    ∀ fuel i, genTry w h avoid d rng fuel i = none := by
  intro fuel
  induction fuel with
  | zero => intro i; rfl
  | succ n ih =>
    intro i
    have hc := hunsat (rng i) (rng (i+1))
      (hrng i).1 (hrng i).2 (hrng (i+1)).1 (hrng (i+1)).2
    simp [genTry, hc, ih (i + 2)]

/-- Witness for C6: on a degenerate 0×0 screen with the avoid point at
the origin, the clearance constraint is unsatisfiable and the loop
yields `none` at fuel 5. -/
theorem gen_hang_c6_witness :
    genTry 0 0 ⟨0, 0⟩ 0 (fun _ => 0) 5 0 = none :=
  gen_hang_c6 0 0 ⟨0, 0⟩ 0 (fun _ => 0)
    (fun _ => ⟨le_refl 0, by norm_num⟩)
    (fun u v _ _ _ _ => by norm_num [distGtB, distSq]) 5 0

lemma genTry_spec (w h : ℚ) (avoid : Point) (d : ℚ) (rng : ℕ → ℚ) :
    ∀ (fuel i : ℕ) (p : Point) (j : ℕ),
      genTry w h avoid d rng fuel i = some (p, j) →
      distGtB p avoid (min w h / 10 + d) = true := by
  intro fuel
  induction fuel with
  | zero =>
    intro i p j hp
    simp [genTry] at hp
  | succ n ih =>
    intro i p j hp
    by_cases hc : distGtB ⟨rng i * w, rng (i+1) * h⟩ avoid (min w h / 10 + d) = true
    · simp only [genTry, if_pos hc, Option.some.injEq, Prod.mk.injEq] at hp
      rw [← hp.1]
      exact hc
    · have hcf : distGtB ⟨rng i * w, rng (i+1) * h⟩ avoid (min w h / 10 + d) = false :=
        Bool.eq_false_iff.mpr hc
      simp only [genTry, hcf, Bool.false_eq_true, if_false] at hp
      exact ih (i + 2) p j hp

lemma generateAsteroid_spec (w h : ℚ) (avoid : Point) (d : ℚ) (rng : ℕ → ℚ)
    (fuel i : ℕ) (a : Asteroid) (j : ℕ)
    (hg : generateAsteroid w h avoid d rng fuel i = some (a, j)) :
    a.sides = 6 ∧ a.size = min w h / 10 ∧
      distGtB a.pos avoid (min w h / 10 + d) = true := by
  unfold generateAsteroid at hg
  cases hgt : genTry w h avoid d rng fuel i with
  | none => rw [hgt] at hg; simp at hg
  | some pj =>
    obtain ⟨p, j'⟩ := pj
    rw [hgt] at hg
    simp only [Option.some.injEq, Prod.mk.injEq] at hg
    rw [← hg.1]
    exact ⟨rfl, rfl, genTry_spec w h avoid d rng fuel i p j' hgt⟩

lemma genAsteroids_spec (w h : ℚ) (avoid : Point) (d : ℚ) (rng : ℕ → ℚ)
    (fuel : ℕ) :
    ∀ (n i : ℕ) (l : List Asteroid) (j : ℕ),
      genAsteroids w h avoid d rng fuel n i = some (l, j) →
      l.length = n ∧ ∀ a ∈ l, a.sides = 6 ∧ a.size = min w h / 10 ∧
        distGtB a.pos avoid (min w h / 10 + d) = true := by
  intro n
  induction n with
  | zero =>
    intro i l j hg
    simp only [genAsteroids, Option.some.injEq, Prod.mk.injEq] at hg
    rw [← hg.1]
    simp
  | succ m ih =>
    intro i l j hg
    unfold genAsteroids at hg
    cases hga : generateAsteroid w h avoid d rng fuel i with
    | none => simp only [hga] at hg; exact Option.noConfusion hg
    | some aj =>
      obtain ⟨a, j1⟩ := aj
      simp only [hga] at hg
      cases hgl : genAsteroids w h avoid d rng fuel m j1 with
      | none => simp only [hgl] at hg; exact Option.noConfusion hg
      | some lj =>
        obtain ⟨l1, j2⟩ := lj
        simp only [hgl, Option.some.injEq, Prod.mk.injEq] at hg
        obtain ⟨hl, -⟩ := hg
        have h1 := generateAsteroid_spec w h avoid d rng fuel i a j1 hga
        have h2 := ih j1 l1 j2 hgl
        rw [← hl]
        constructor
        · simp [h2.1]
        · intro x hx
          rcases List.mem_cons.mp hx with rfl | hx2
          · exact h1
          · exact h2.2 x hx2

/-- **C7.** Whenever the game-start / reset setup completes, the
resulting state has the ship at `(w/2, h/2)` with zero velocity, exactly
10 freshly generated asteroids, each with `sides = 6`,
`size = min(w,h)/10`, and position at real distance strictly greater
than `size + 3 * SHIP_HEIGHT` from the ship center, and the state
machine is in Playing (`gameover = false`) . -/
theorem reset_c7 (w h : ℚ) (rng : ℕ → ℚ) (fuel : ℕ) (st : GState)
    (hr : resetState w h rng fuel = some st) :
    st.ship.pos = ⟨w/2, h/2⟩ ∧ st.ship.vel = ⟨0, 0⟩ ∧ st.gameover = false ∧
    st.asteroids.length = 10 ∧
    ∀ a ∈ st.asteroids, a.sides = 6 ∧ a.size = min w h / 10 ∧
      ((min w h / 10 + SHIP_HEIGHT * 3 : ℚ) : ℝ) <
        Point.distance a.pos ⟨w/2, h/2⟩ := by
  unfold resetState at hr
  cases hg : genAsteroids w h ⟨w/2, h/2⟩ (SHIP_HEIGHT * 3) rng fuel 10 0 with
  | none => rw [hg] at hr; simp at hr
  | some lj =>
    obtain ⟨l, j⟩ := lj
    rw [hg] at hr
    simp only [Option.some.injEq] at hr
    have hspec := genAsteroids_spec w h ⟨w/2, h/2⟩ (SHIP_HEIGHT * 3) rng fuel 10 0 l j hg
    rw [← hr]
    refine ⟨rfl, rfl, rfl, hspec.1, ?_⟩
    intro a ha
    obtain ⟨h6, hsz, hdist⟩ := hspec.2 a ha
    exact ⟨h6, hsz, (distGtB_iff a.pos ⟨w/2, h/2⟩ (min w h / 10 + SHIP_HEIGHT * 3)).mp hdist⟩

set_option maxRecDepth 10000 in
/-- Witness for C7: a 1000×1000 screen with an rng stream that is
constantly 0 places all 10 asteroids at the origin, far enough from the
center; the reset succeeds on the first try of each rejection loop. -/
theorem reset_c7_witness :
    (⟨⟨⟨500, 500⟩, ⟨0, 0⟩, 0⟩,
      List.replicate 10 ⟨⟨0, 0⟩, ⟨0, 0⟩, 0, 0, 100, 6, false⟩,
      [], false⟩ : GState).asteroids.length = 10 :=
  (reset_c7 1000 1000 (fun _ => 0) 1
    ⟨⟨⟨500, 500⟩, ⟨0, 0⟩, 0⟩,
      List.replicate 10 ⟨⟨0, 0⟩, ⟨0, 0⟩, 0, 0, 100, 6, false⟩,
      [], false⟩ (by with_unfolding_all decide)).2.2.2.1

/-- **C10.** The reset (and game start) always leaves the bullet
collection empty: whichever bullets were in play when confirm was
pressed are discarded. -/
theorem reset_bullets_c10 (w h : ℚ) (rng : ℕ → ℚ) (fuel : ℕ) (st : GState)
    (hr : resetState w h rng fuel = some st) : st.bullets = [] := by
  unfold resetState at hr
  cases hg : genAsteroids w h ⟨w/2, h/2⟩ (SHIP_HEIGHT * 3) rng fuel 10 0 with
  | none => rw [hg] at hr; simp at hr
  | some lj =>
    obtain ⟨l, j⟩ := lj
    rw [hg] at hr
    simp only [Option.some.injEq] at hr
    rw [← hr]

set_option maxRecDepth 10000 in
/-- Witness for C10 at the concrete reset of the C7 scenario. -/
theorem reset_bullets_c10_witness :
    (⟨⟨⟨500, 500⟩, ⟨0, 0⟩, 0⟩,
      List.replicate 10 ⟨⟨0, 0⟩, ⟨0, 0⟩, 0, 0, 100, 6, false⟩,
      [], false⟩ : GState).bullets = [] :=
  reset_bullets_c10 1000 1000 (fun _ => 0) 1
    ⟨⟨⟨500, 500⟩, ⟨0, 0⟩, 0⟩,
      List.replicate 10 ⟨⟨0, 0⟩, ⟨0, 0⟩, 0, 0, 100, 6, false⟩,
      [], false⟩ (by with_unfolding_all decide)

end Asteroids
